import Mathlib

/-!
Verification development for the MudVault Mesh DikuMUD client
(`src/examples/dikumud`).  C strings are modelled as `List Char`
(NUL-free byte strings); `time_t` and C `int` values are modelled as `Int`
(with `Nat` for counters that stay non-negative).  Each embedded definition
mirrors one C function of the repository and keeps its name.
-/

/-- The character `{` (written numerically to keep string literals simple). -/
def lbrace : Char := Char.ofNat 123

/-- The character `}`. -/
def rbrace : Char := Char.ofNat 125

/-- The backspace character (C `\b`). -/
def bsChar : Char := Char.ofNat 8

/-- The form-feed character (C `\f`). -/
def ffChar : Char := Char.ofNat 12

/-- Whitespace test used by the JSON scanners: space, tab, newline, carriage
return (the exact four characters the C code skips). -/
def isWsC (c : Char) : Bool :=
  c = ' ' || c = Char.ofNat 9 || c = Char.ofNat 10 || c = Char.ofNat 13

/-- ASCII decimal digit test (C `isdigit` on the ASCII range). -/
def isDigitC (c : Char) : Bool :=
  48 ≤ c.toNat && c.toNat ≤ 57

/-- C `isspace` for the ASCII range (space, \t, \n, \v, \f, \r). -/
def isSpaceC (c : Char) : Bool :=
  c = ' ' || (9 ≤ c.toNat && c.toNat ≤ 13)

/-- Boolean prefix test: `startsWithL pat s` is true iff `pat` is a prefix
of `s` (the comparison C performs with `strncmp(s, pat, strlen pat) == 0`). -/
def startsWithL : List Char → List Char → Bool
  | [], _ => true
  | _ :: _, [] => false
  | p :: ps, c :: cs => if p = c then startsWithL ps cs else false

/-- C `strstr(hay, pat)`: the suffix of `hay` beginning at the first
occurrence of `pat`, or `none` when `pat` does not occur. -/
def strstrSuffix? (hay pat : List Char) : Option (List Char) :=
  if startsWithL pat hay then some hay
  else
    match hay with
    | [] => none
    | _ :: t => strstrSuffix? t pat

/-- C `strchr(s, x)`: the suffix of `s` beginning at the first occurrence of
the character `x`, or `none`. -/
def strchrSuffix? : List Char → Char → Option (List Char)
  | [], _ => none
  | c :: t, x => if c = x then some (c :: t) else strchrSuffix? t x

/-- Skip the whitespace characters the JSON getters tolerate after a colon. -/
def skipWs (s : List Char) : List Char := s.dropWhile isWsC

/-- Value of an ASCII hex digit, `none` for any other character. -/
def hexVal? (c : Char) : Option Nat :=
  if 48 ≤ c.toNat ∧ c.toNat ≤ 57 then some (c.toNat - 48)
  else if 97 ≤ c.toNat ∧ c.toNat ≤ 102 then some (c.toNat - 87)
  else if 65 ≤ c.toNat ∧ c.toNat ≤ 70 then some (c.toNat - 55)
  else none

/-- Accumulate the maximal leading run of hex digits (helper for `strtol16`). -/
def hexPrefixVal : List Char → Nat → Nat
  | [], acc => acc
  | c :: rest, acc =>
    match hexVal? c with
    | some v => hexPrefixVal rest (acc * 16 + v)
    | none => acc

/-- Drop an optional `0x`/`0X` prefix, as `strtol(_, _, 16)` does. -/
def drop0x : List Char → List Char
  | '0' :: c :: rest => if c = 'x' ∨ c = 'X' then rest else '0' :: c :: rest
  | s => s

/-- C `strtol(s, NULL, 16)`: skip leading whitespace, parse an optional sign,
an optional `0x` prefix, then the maximal run of hex digits. -/
def strtol16 (s : List Char) : Int :=
  match s.dropWhile isSpaceC with
  | [] => 0
  | c :: rest =>
    if c = '-' then -(hexPrefixVal (drop0x rest) 0 : Int)
    else if c = '+' then (hexPrefixVal (drop0x rest) 0 : Int)
    else (hexPrefixVal (drop0x (c :: rest)) 0 : Int)

/-- Maximal leading run of decimal digits, as a number (helper for `atoi`). -/
def decPrefixVal : List Char → Nat → Nat
  | [], acc => acc
  | c :: rest, acc =>
    if isDigitC c then decPrefixVal rest (acc * 10 + c.toNat - 48) else acc

/-- C `atoi`: skip leading whitespace, parse an optional sign and the maximal
run of decimal digits; anything else yields 0. -/
def atoi (s : List Char) : Int :=
  match s.dropWhile isSpaceC with
  | '-' :: rest => -(decPrefixVal rest 0 : Int)
  | '+' :: rest => (decPrefixVal rest 0 : Int)
  | s1 => (decPrefixVal s1 0 : Int)

/-- Lowercase hex digit character for a value below 16 (as `%x` prints). -/
def hexDigitChar (n : Nat) : Char :=
  ("0123456789abcdef".toList).getD n '0'

/-- The two lowercase hex digits of a byte (the `xx` of `%04x` on a byte). -/
def hexByte (n : Nat) : List Char :=
  [hexDigitChar (n / 16), hexDigitChar (n % 16)]

/-- Decimal rendering of a C `int`, as `sprintf("%d", _)` produces. -/
def intToDec (i : Int) : List Char :=
  if i < 0 then '-' :: Nat.toDigits 10 i.natAbs else Nat.toDigits 10 i.toNat

/-- The byte-to-`Char` conversion performed by a C `(char)` cast of a value
already reduced modulo 256. -/
def charOfByte (n : Nat) : Char := Char.ofNat n

/-! ## `json_simple.c` — parsing side -/

/-- The search pattern `"key":` that `imc_json_get_string`, `imc_json_get_int`
and `imc_json_get_bool` build with `sprintf(search_key, "\"%s\":", key)`. -/
def searchPattern (key : List Char) : List Char :=
  '"' :: key ++ ['"', ':']

/-- The closing-quote scan of `imc_json_get_string` (lines 57–67): walk
forward skipping `\c` pairs; return the characters before the closing quote,
or `none` when the string is unterminated. -/
def scanContent : List Char → Option (List Char)
  | [] => none
  | '"' :: _ => some []
  | '\\' :: c :: rest => (scanContent rest).map (fun r => '\\' :: c :: r)
  | c :: rest => (scanContent rest).map (fun r => c :: r)

/-- Unicode-escape decoding step of `imc_unescape_json`: `strtol` the four
hex characters; values below 128 become the corresponding byte (C
`(char)unicode_val`, i.e. the value modulo 256), anything else becomes `?`. -/
def uChar (quad : List Char) : Char :=
  let v := strtol16 quad
  if v < 128 then charOfByte (v % 256).toNat else '?'

/-- `imc_unescape_json` (json_simple.c lines 395–468), as a total function on
NUL-free strings.  A backslash whose following character is not a recognised
escape makes the C loop copy the backslash and then process that character as
an ordinary one (it cannot itself start an escape, having just been compared
against `\`), which is inlined here as emitting both; a `\u` with fewer than
four following characters likewise emits `\` and `u` and continues.  The
final wildcard branch is unreachable (the guard ensures four characters). -/
def imc_unescape_json : List Char → List Char
  | [] => []
  | c :: rest =>
    if c = '\\' then
      match rest with
      | [] => ['\\']
      | c2 :: rest2 =>
        if c2 = '"' then '"' :: imc_unescape_json rest2
        else if c2 = '\\' then '\\' :: imc_unescape_json rest2
        else if c2 = 'b' then bsChar :: imc_unescape_json rest2
        else if c2 = 'f' then ffChar :: imc_unescape_json rest2
        else if c2 = 'n' then Char.ofNat 10 :: imc_unescape_json rest2
        else if c2 = 'r' then Char.ofNat 13 :: imc_unescape_json rest2
        else if c2 = 't' then Char.ofNat 9 :: imc_unescape_json rest2
        else if c2 = 'u' then
          if rest2.length < 4 then '\\' :: 'u' :: imc_unescape_json rest2
          else
            match rest2 with
            | a :: b :: c3 :: d :: rest3 => uChar [a, b, c3, d] :: imc_unescape_json rest3
            | _ => []
        else '\\' :: c2 :: imc_unescape_json rest2
    else c :: imc_unescape_json rest

/-- `imc_json_get_string` (json_simple.c lines 20–77): find the literal text
`"key":`, move to the first `:` from there, skip whitespace, require a
double quote, scan to the closing quote and unescape the content. -/
def imc_json_get_string (json key : List Char) : Option (List Char) :=
  match strstrSuffix? json (searchPattern key) with
  | none => none
  | some keyPos =>
    match strchrSuffix? keyPos ':' with
    | none => none
    | some colonPos =>
      match skipWs colonPos.tail with
      | '"' :: rest =>
        match scanContent rest with
        | none => none
        | some content => some (imc_unescape_json content)
      | _ => none

/-- `imc_json_get_int` (json_simple.c lines 82–125): find `"key":`, skip
whitespace, collect the run of digit/`-`/`+` characters (truncated to 31,
the `value_str` buffer bound) and `atoi` it; every failure path returns 0. -/
def imc_json_get_int (json key : List Char) : Int :=
  match strstrSuffix? json (searchPattern key) with
  | none => 0
  | some keyPos =>
    match strchrSuffix? keyPos ':' with
    | none => 0
    | some colonPos =>
      let vs := skipWs colonPos.tail
      let numChars := vs.takeWhile (fun c => isDigitC c || c = '-' || c = '+')
      atoi (numChars.take 31)

/-! ## `json_simple.c` — emitting side -/

/-- Per-character escape of `imc_escape_json` (json_simple.c lines 334–390).
The C comparison `str[i] < 32` is on a signed `char`, so bytes ≥ 128 are
also sent to the `\uXXXX` branch (with the `(unsigned char)` value). -/
def escapeChar (c : Char) : List Char :=
  if c = '"' then ['\\', '"']
  else if c = '\\' then ['\\', '\\']
  else if c = bsChar then ['\\', 'b']
  else if c = ffChar then ['\\', 'f']
  else if c = Char.ofNat 10 then ['\\', 'n']
  else if c = Char.ofNat 13 then ['\\', 'r']
  else if c = Char.ofNat 9 then ['\\', 't']
  else if c.toNat < 32 ∨ 128 ≤ c.toNat then '\\' :: 'u' :: '0' :: '0' :: hexByte (c.toNat % 256)
  else [c]

/-- `imc_escape_json`: the escape loop applied to every character in turn. -/
def imc_escape_json : List Char → List Char
  | [] => []
  | c :: rest => escapeChar c ++ imc_escape_json rest

/-- `imc_json_create_object`: the string `"{"`. -/
def imc_json_create_object : List Char := [lbrace]

/-- `imc_json_add_string` (json_simple.c lines 184–214): append
`"key":"escaped-value"`, with `{` or `,` before it depending on whether the
object currently is exactly `"{"`. -/
def imc_json_add_string (json key value : List Char) : List Char :=
  if json = [lbrace] then
    lbrace :: '"' :: key ++ '"' :: ':' :: '"' :: imc_escape_json value ++ ['"']
  else
    json ++ ',' :: '"' :: key ++ '"' :: ':' :: '"' :: imc_escape_json value ++ ['"']

/-- `imc_json_add_int` (json_simple.c lines 219–245): append `"key":<int>`. -/
def imc_json_add_int (json key : List Char) (value : Int) : List Char :=
  if json = [lbrace] then
    lbrace :: '"' :: key ++ '"' :: ':' :: intToDec value
  else
    json ++ ',' :: '"' :: key ++ '"' :: ':' :: intToDec value

/-- `imc_json_add_bool` (json_simple.c lines 250–276): append
`"key":true|false`. -/
def imc_json_add_bool (json key : List Char) (value : Bool) : List Char :=
  if json = [lbrace] then
    lbrace :: '"' :: key ++ '"' :: ':' :: (if value then "true".toList else "false".toList)
  else
    json ++ ',' :: '"' :: key ++ '"' :: ':' :: (if value then "true".toList else "false".toList)

/-- `imc_json_add_object` (json_simple.c lines 281–307): append
`"key":<object>` with the object text inserted verbatim. -/
def imc_json_add_object (json key object : List Char) : List Char :=
  if json = [lbrace] then
    lbrace :: '"' :: key ++ '"' :: ':' :: object
  else
    json ++ ',' :: '"' :: key ++ '"' :: ':' :: object

/-- `imc_json_finalize` (json_simple.c lines 312–325): append `}`. -/
def imc_json_finalize (json : List Char) : List Char := json ++ [rbrace]

/-! ## `mudvault_mesh.c` — rate limiter -/

/-- `IMC_MAX_TELLS_MIN` (imc_config.h): max tells per minute. -/
def IMC_MAX_TELLS_MIN : Int := 20

/-- `IMC_MAX_CHANNELS_MIN` (imc_config.h): max channel messages per minute. -/
def IMC_MAX_CHANNELS_MIN : Int := 30

/-- `IMC_MAX_WHO_MIN` (imc_config.h): max who requests per minute. -/
def IMC_MAX_WHO_MIN : Int := 5

/-- The six static variables of the rate limiter
(mudvault_mesh.c lines 24–30), all zero-initialised. -/
structure RateState where
  last_tell_time : Int
  last_channel_time : Int
  last_who_time : Int
  tells_this_minute : Int
  channels_this_minute : Int
  who_this_minute : Int
deriving DecidableEq, Repr

/-- The zero-initialised limiter state at program start. -/
def rateInit : RateState := ⟨0, 0, 0, 0, 0, 0⟩

/-- `imc_check_rate_limit` (mudvault_mesh.c lines 570–603): returns the C
function's boolean result together with the updated static state.  `now` is
the value of `time(NULL)` during the call. -/
def imc_check_rate_limit (st : RateState) (now : Int) (type identifier : List Char) :
    Bool × RateState :=
  if type = "tell".toList then
    let st1 := if now ≠ st.last_tell_time then
      { st with last_tell_time := now, tells_this_minute := 0 } else st
    if IMC_MAX_TELLS_MIN ≤ st1.tells_this_minute then (false, st1)
    else (true, { st1 with tells_this_minute := st1.tells_this_minute + 1 })
  else if type = "channel".toList then
    let st1 := if now ≠ st.last_channel_time then
      { st with last_channel_time := now, channels_this_minute := 0 } else st
    if IMC_MAX_CHANNELS_MIN ≤ st1.channels_this_minute then (false, st1)
    else (true, { st1 with channels_this_minute := st1.channels_this_minute + 1 })
  else if type = "who".toList then
    let st1 := if now ≠ st.last_who_time then
      { st with last_who_time := now, who_this_minute := 0 } else st
    if IMC_MAX_WHO_MIN ≤ st1.who_this_minute then (false, st1)
    else (true, { st1 with who_this_minute := st1.who_this_minute + 1 })
  else (true, st)

/-- `imc_reset_rate_limits` (mudvault_mesh.c lines 608–612). -/
def imc_reset_rate_limits (st : RateState) : RateState :=
  { st with tells_this_minute := 0, channels_this_minute := 0, who_this_minute := 0 }

/-- Run `n` consecutive `imc_check_rate_limit` calls of the same type and
identifier at the same `time(NULL)` value, counting how many are accepted
(the successful sends of the calling command). -/
def runRateCalls (st : RateState) (now : Int) (type identifier : List Char) :
    Nat → Nat × RateState
  | 0 => (0, st)
  | n + 1 =>
    let r := imc_check_rate_limit st now type identifier
    let rec_ := runRateCalls r.2 now type identifier n
    ((if r.1 then 1 else 0) + rec_.1, rec_.2)

/-! ## `mudvault_mesh.c` — connection state machine -/

/-- `IMC_RECONNECT_DELAY` (imc_config.h): seconds between reconnects. -/
def IMC_RECONNECT_DELAY : Int := 30

/-- `IMC_MAX_RECONNECTS` (imc_config.h). -/
def IMC_MAX_RECONNECTS : Int := 10

/-- `IMC_PING_INTERVAL` (imc_config.h): heartbeat interval in seconds. -/
def IMC_PING_INTERVAL : Int := 60

/-- `IMC_TIMEOUT` (imc_config.h): connection timeout in seconds. -/
def IMC_TIMEOUT : Int := 30

/-- `IMC_RETRY_BACKOFF` (imc_config.h): documented as the exponential backoff
multiplier.  (No C function of the repository reads this constant.) -/
def IMC_RETRY_BACKOFF : Int := 2

/-- `IMC_MAX_RETRY_DELAY` (imc_config.h): documented as the maximum retry
delay in seconds.  (No C function of the repository reads this constant.) -/
def IMC_MAX_RETRY_DELAY : Int := 300

/-- `imc_state_t` (openimc.h lines 35–42). -/
inductive ImcState where
  | disconnected
  | connecting
  | connected
  | authenticating
  | authenticated
  | errorSt
deriving DecidableEq, Repr

/-- The fields of `IMC_DATA` (openimc.h lines 128–141) that the connection
lifecycle reads and writes. -/
structure ImcData where
  state : ImcState
  last_ping : Int
  last_pong : Int
  connect_time : Int
  reconnect_attempts : Int
deriving DecidableEq, Repr

/-- Outcome of one `imc_connect` call, abstracting the network: the socket
connect fails, the WebSocket handshake fails, `imc_authenticate` fails, or
everything up to sending the auth envelope succeeds. -/
inductive ConnectOutcome where
  | sockFail
  | handshakeFail
  | authSendFail
  | ok
deriving DecidableEq, Repr

/-- `imc_disconnect` (mudvault_mesh.c lines 218–231): close the socket, set
the state to disconnected and stamp `connect_time` with the current time. -/
def imc_disconnect (d : ImcData) (now : Int) : ImcData :=
  { d with state := .disconnected, connect_time := now }

/-- `imc_connect` (mudvault_mesh.c lines 173–213) on the lifecycle fields,
returning the C result code.  On socket or handshake failure the state
becomes disconnected and `connect_time` is left unchanged; on auth-send
failure `imc_disconnect` runs; otherwise the state is authenticating after
`imc_authenticate` sent the auth envelope, and the result is `IMC_ERR_NONE`. -/
def imc_connect (d : ImcData) (now : Int) (oc : ConnectOutcome) : ImcData × Int :=
  match oc with
  | .sockFail => ({ d with state := .disconnected }, -9)
  | .handshakeFail => ({ d with state := .disconnected }, -9)
  | .authSendFail =>
    let d1 := { d with state := .connected, connect_time := now }
    (imc_disconnect d1 now, -2)
  | .ok =>
    let d1 := { d with state := .connected, connect_time := now }
    ({ d1 with state := .authenticating }, 0)

/-- `imc_reconnect` (mudvault_mesh.c lines 236–252): increment the attempt
counter, give up past `IMC_MAX_RECONNECTS`, otherwise run `imc_connect` and
zero the counter when it returns a non-negative code. -/
def imc_reconnect (d : ImcData) (now : Int) (oc : ConnectOutcome) : ImcData :=
  let d1 := { d with reconnect_attempts := d.reconnect_attempts + 1 }
  if IMC_MAX_RECONNECTS < d1.reconnect_attempts then d1
  else
    let r := imc_connect d1 now oc
    if 0 ≤ r.2 then { r.1 with reconnect_attempts := 0 } else r.1

/-- One invocation of `imc_loop` (mudvault_mesh.c lines 97–157) on a tick
with no inbound data (so `imc_process_input` leaves the state alone), at
wall-clock `now`.  The `oc` argument resolves the network outcome should the
disconnected branch call `imc_reconnect`.  Sending the periodic ping only
stamps `last_ping`; the rate-limit reset bookkeeping is not part of the
lifecycle fields. -/
def imc_loop_step (d : ImcData) (now : Int) (oc : ConnectOutcome) : ImcData :=
  match d.state with
  | .disconnected =>
    if IMC_RECONNECT_DELAY < now - d.connect_time then imc_reconnect d now oc else d
  | .connecting =>
    if IMC_TIMEOUT < now - d.connect_time then imc_disconnect d now else d
  | .authenticating =>
    if IMC_TIMEOUT < now - d.connect_time then imc_disconnect d now else d
  | .authenticated =>
    let d1 := if IMC_PING_INTERVAL < now - d.last_ping then { d with last_ping := now } else d
    if 0 < d1.last_pong ∧ 2 * IMC_PING_INTERVAL < now - d1.last_pong then
      imc_disconnect d1 now
    else d1
  | _ => d

/-! ## `websocket.c` — accept-hash pipeline (SHA-1 and base64) -/

/-- 32-bit truncation. -/
def m32 (x : Nat) : Nat := x % 4294967296

/-- 32-bit left rotation. -/
def rotl32 (x s : Nat) : Nat := m32 ((x <<< s) + (x >>> (32 - s)))

/-- Big-endian 32-bit word from four bytes. -/
def word32 (a b c d : Nat) : Nat := ((a * 256 + b) * 256 + c) * 256 + d

/-- SHA-1 padding: append `0x80`, zeros to 56 mod 64, then the bit length
as eight big-endian bytes. -/
def sha1pad (msg : List Nat) : List Nat :=
  let l := msg.length
  let zeros := (64 + 55 - (l % 64)) % 64
  let bits := 8 * l
  msg ++ 128 :: List.replicate zeros 0 ++
    [m32 (bits / 72057594037927936) % 256, (bits / 281474976710656) % 256,
     (bits / 1099511627776) % 256, (bits / 4294967296) % 256,
     (bits / 16777216) % 256, (bits / 65536) % 256, (bits / 256) % 256, bits % 256]

/-- The sixteen message words of one 64-byte block. -/
def sha1Words : List Nat → List Nat
  | a :: b :: c :: d :: rest => word32 a b c d :: sha1Words rest
  | _ => []

/-- One schedule-extension step on the reversed word list: prepend
`rotl1 (w[i-3] xor w[i-8] xor w[i-14] xor w[i-16])`. -/
def sha1ExtendStep (wrev : List Nat) : List Nat :=
  rotl32 (Nat.xor (Nat.xor (wrev.getD 2 0) (wrev.getD 7 0))
      (Nat.xor (wrev.getD 13 0) (wrev.getD 15 0))) 1 :: wrev

/-- Iterate the schedule extension `n` times. -/
def sha1Extend : Nat → List Nat → List Nat
  | 0, wrev => wrev
  | n + 1, wrev => sha1Extend n (sha1ExtendStep wrev)

/-- The eighty schedule words of a block. -/
def sha1Schedule (block : List Nat) : List Nat :=
  (sha1Extend 64 (sha1Words block).reverse).reverse

/-- The SHA-1 round function `f` for round `i`. -/
def sha1F (i b c d : Nat) : Nat :=
  if i < 20 then Nat.lor (Nat.land b c) (Nat.land (4294967295 - b) d)
  else if i < 40 then Nat.xor (Nat.xor b c) d
  else if i < 60 then Nat.lor (Nat.lor (Nat.land b c) (Nat.land b d)) (Nat.land c d)
  else Nat.xor (Nat.xor b c) d

/-- The SHA-1 round constant for round `i`. -/
def sha1K (i : Nat) : Nat :=
  if i < 20 then 1518500249
  else if i < 40 then 1859775393
  else if i < 60 then 2400959708
  else 3395469782

/-- One of the eighty rounds, acting on the state `(a, b, c, d, e)`. -/
def sha1Round (i w : Nat) : Nat × Nat × Nat × Nat × Nat → Nat × Nat × Nat × Nat × Nat
  | (a, b, c, d, e) =>
    (m32 (rotl32 a 5 + sha1F i b c d + e + sha1K i + w), a, rotl32 b 30, c, d)

/-- Run the rounds over the schedule, starting at round index `i`. -/
def sha1Rounds (i : Nat) (ws : List Nat) (st : Nat × Nat × Nat × Nat × Nat) :
    Nat × Nat × Nat × Nat × Nat :=
  match ws with
  | [] => st
  | w :: rest => sha1Rounds (i + 1) rest (sha1Round i w st)

/-- Compress one 64-byte block into the running hash state. -/
def sha1Block (h : Nat × Nat × Nat × Nat × Nat) (block : List Nat) :
    Nat × Nat × Nat × Nat × Nat :=
  match h, sha1Rounds 0 (sha1Schedule block) h with
  | (h0, h1, h2, h3, h4), (a, b, c, d, e) =>
    (m32 (h0 + a), m32 (h1 + b), m32 (h2 + c), m32 (h3 + d), m32 (h4 + e))

/-- Fold the compression over the given number of 64-byte blocks. -/
def sha1Blocks : Nat → (Nat × Nat × Nat × Nat × Nat) → List Nat →
    Nat × Nat × Nat × Nat × Nat
  | 0, h, _ => h
  | n + 1, h, bytes => sha1Blocks n (sha1Block h (bytes.take 64)) (bytes.drop 64)

/-- Big-endian bytes of a 32-bit word. -/
def word32Bytes (w : Nat) : List Nat :=
  [(w / 16777216) % 256, (w / 65536) % 256, (w / 256) % 256, w % 256]

/-- SHA-1 of a byte string, as the OpenSSL `SHA1_Init/Update/Final` sequence
in `calculate_accept_hash` computes it: the 20 digest bytes. -/
def sha1 (msg : List Nat) : List Nat :=
  match sha1Blocks ((sha1pad msg).length / 64)
      (1732584193, 4023233417, 2562383102, 271733878, 3285377520) (sha1pad msg) with
  | (h0, h1, h2, h3, h4) =>
    word32Bytes h0 ++ word32Bytes h1 ++ word32Bytes h2 ++ word32Bytes h3 ++ word32Bytes h4

/-- The base64 alphabet used by the OpenSSL BIO encoder. -/
def b64Char (n : Nat) : Char :=
  ("ABCDEFGHIJKLMNOPQRSTUVWXYZabcdefghijklmnopqrstuvwxyz0123456789+/".toList).getD n 'A'

/-- `base64_encode` (websocket.c lines 47–65): standard base64 with `=`
padding and no line breaks (`BIO_FLAGS_BASE64_NO_NL`). -/
def base64_encode : List Nat → List Char
  | [] => []
  | [a] => [b64Char (a / 4), b64Char (a % 4 * 16), '=', '=']
  | [a, b] => [b64Char (a / 4), b64Char (a % 4 * 16 + b / 16), b64Char (b % 16 * 4), '=']
  | a :: b :: c :: rest =>
    b64Char (a / 4) :: b64Char (a % 4 * 16 + b / 16) ::
      b64Char (b % 16 * 4 + c / 64) :: b64Char (c % 64) :: base64_encode rest

/-- `WS_MAGIC_STRING` (websocket.c line 23). -/
def WS_MAGIC_STRING : List Char := "258EAFA5-E914-47DA-95CA-C5AB0DC85B11".toList

/-- `calculate_accept_hash` (websocket.c lines 86–105):
base64 of the SHA-1 of `key ++ magic`. -/
def calculate_accept_hash (key : List Char) : List Char :=
  base64_encode (sha1 ((key ++ WS_MAGIC_STRING).map Char.toNat))

/-- The response-checking tail of `imc_websocket_handshake`
(websocket.c lines 253–270): succeed iff the response text begins with
`HTTP/1.1 101` (a 12-byte `strncmp`) and contains the literal substring
`Sec-WebSocket-Accept: <expected>` (a `strstr`). -/
def imc_websocket_handshake_check (response key : List Char) : Bool :=
  if startsWithL ("HTTP/1.1 101".toList) response then
    (strstrSuffix? response
      ("Sec-WebSocket-Accept: ".toList ++ calculate_accept_hash key)).isSome
  else false

/-- Modelled from the spec (§4.1 handshake): split an HTTP response into its
CRLF-separated lines. -/
def splitCRLF : List Char → List (List Char)
  | [] => [[]]
  | '\r' :: '\n' :: rest2 => [] :: splitCRLF rest2
  | c :: rest =>
    match splitCRLF rest with
    | [] => [[c]]
    | l :: ls => (c :: l) :: ls

/-- Modelled from the spec (§4.1): the HTTP status code of the response —
the integer token following the first space of the status line. -/
def specStatusCode (response : List Char) : Option Nat :=
  match splitCRLF response with
  | [] => none
  | statusLine :: _ =>
    match strchrSuffix? statusLine ' ' with
    | none => none
    | some sp =>
      let ds := sp.tail.takeWhile isDigitC
      if ds = [] then none else some (decPrefixVal ds 0)

/-- Modelled from the spec (§4.1): the value of a response header — the text
after `Name: ` on the first line that starts with it. -/
def specHeaderValue (response name : List Char) : Option (List Char) :=
  ((splitCRLF response).find? (fun l => startsWithL (name ++ ": ".toList) l)).map
    (fun l => l.drop (name.length + 2))

/-! ## `mudvault_mesh.c` — envelope construction and sample documents -/

/-- `IMC_MUD_NAME` (imc_config.h). -/
def IMC_MUD_NAME : List Char := "YourMUDName".toList

/-- `IMC_API_KEY` (imc_config.h). -/
def IMC_API_KEY : List Char := "your-api-key-here".toList

/-- `IMC_PROTOCOL_VERSION` (imc_config.h). -/
def IMC_PROTOCOL_VERSION : List Char := "1.0".toList

/-- `IMC_MESSAGE_TTL` (imc_config.h). -/
def IMC_MESSAGE_TTL : Int := 300

/-- `IMC_MESSAGE_PRIORITY` (imc_config.h). -/
def IMC_MESSAGE_PRIORITY : Int := 5

/-- `imc_create_auth` (mudvault_mesh.c lines 635–677), with the two
nondeterministic ingredients (`imc_generate_uuid`, `imc_get_timestamp`)
passed in as arguments. -/
def imc_create_auth (uuid timestamp : List Char) : List Char :=
  let json := imc_json_create_object
  let json := imc_json_add_string json ("version".toList) IMC_PROTOCOL_VERSION
  let json := imc_json_add_string json ("id".toList) uuid
  let json := imc_json_add_string json ("timestamp".toList) timestamp
  let json := imc_json_add_string json ("type".toList) ("auth".toList)
  let from_obj := imc_json_add_string imc_json_create_object ("mud".toList) IMC_MUD_NAME
  let json := imc_json_add_object json ("from".toList) from_obj
  let to_obj := imc_json_add_string imc_json_create_object ("mud".toList) ("Gateway".toList)
  let json := imc_json_add_object json ("to".toList) to_obj
  let payload := imc_json_add_string imc_json_create_object ("mudName".toList) IMC_MUD_NAME
  let payload := imc_json_add_string payload ("token".toList) IMC_API_KEY
  let json := imc_json_add_object json ("payload".toList) payload
  let metadata := imc_json_add_int imc_json_create_object ("priority".toList) IMC_MESSAGE_PRIORITY
  let metadata := imc_json_add_int metadata ("ttl".toList) IMC_MESSAGE_TTL
  let metadata := imc_json_add_string metadata ("encoding".toList) ("utf-8".toList)
  let metadata := imc_json_add_string metadata ("language".toList) ("en".toList)
  let json := imc_json_add_object json ("metadata".toList) metadata
  imc_json_finalize json

/-- A fixed sample auth envelope (concrete uuid and timestamp). -/
def authDoc : List Char :=
  imc_create_auth ("00000000-0000-0000-0000-000000000000".toList)
    ("2024-01-01T00:00:00Z".toList)

/-- The nested `from` object `{"mud":"Beta","user":"Alice"}` of the spec's
tell-delivery scenario, built with the emitter. -/
def nestedFromObj : List Char :=
  imc_json_finalize (imc_json_add_string
    (imc_json_add_string imc_json_create_object ("mud".toList) ("Beta".toList))
    ("user".toList) ("Alice".toList))

/-- The envelope `{"type":"tell","from":{"mud":"Beta","user":"Alice"}}`
built with the emitter: a document in which the nested path `from.mud`
exists and holds `"Beta"`. -/
def nestedTellDoc : List Char :=
  imc_json_finalize (imc_json_add_object
    (imc_json_add_string imc_json_create_object ("type".toList) ("tell".toList))
    ("from".toList) nestedFromObj)

/-- The flat document `{"from.mud":"Beta"}`: the member name is literally
the dotted string. -/
def flatDottedDoc : List Char :=
  imc_json_finalize (imc_json_add_string imc_json_create_object
    ("from.mud".toList) ("Beta".toList))

/-- An error envelope whose payload is `{"code":0,"message":"x"}` — the
`payload.code` field is present and holds 0. -/
def errDocZeroCode : List Char :=
  imc_json_finalize (imc_json_add_object
    (imc_json_add_string imc_json_create_object ("type".toList) ("error".toList))
    ("payload".toList)
    (imc_json_finalize (imc_json_add_string
      (imc_json_add_int imc_json_create_object ("code".toList) 0)
      ("message".toList) ("x".toList))))

/-- An error envelope whose payload `{"message":"x"}` has no `code` member. -/
def errDocNoCode : List Char :=
  imc_json_finalize (imc_json_add_object
    (imc_json_add_string imc_json_create_object ("type".toList) ("error".toList))
    ("payload".toList)
    (imc_json_finalize (imc_json_add_string imc_json_create_object
      ("message".toList) ("x".toList))))

/-- A document whose `code` member holds the (non-numeric) string `"abc"`. -/
def strCodeDoc : List Char :=
  imc_json_finalize (imc_json_add_string imc_json_create_object
    ("code".toList) ("abc".toList))
/-- Modelled from the spec (§4.3): a JSON value that is not a number starts
with `"` (string), `t`/`f` (boolean), `n` (null), `{` (object) or `[`
(array); this tests the first character of the value text. -/
def jsonNonNumericStart (s : List Char) : Bool :=
  match s.head? with
  | none => true
  | some c => c = '"' || c = 't' || c = 'f' || c = 'n' || c = lbrace || c = '['

/-- The lifecycle state of the spec's liveness scenario at T=180: state
authenticated, `last_ping` 60, `last_pong` still 0, connected at 0. -/
def c3Data : ImcData := ⟨ImcState.authenticated, 60, 0, 0, 0⟩

/-- Lifecycle state after one failed reconnect attempt made at T=0 (the
attempt reached the auth-send step and failed, so `imc_disconnect` stamped
`connect_time := 0`). -/
def c4AfterFirstFail : ImcData :=
  imc_loop_step ⟨ImcState.disconnected, 0, 0, -100, 0⟩ 0 ConnectOutcome.authSendFail

/-- Disconnected lifecycle state carrying three failed reconnect attempts. -/
def c6Data : ImcData := ⟨ImcState.disconnected, 0, 0, 0, 3⟩

/-- The RFC 6455 sample WebSocket key. -/
def rfcKey : List Char := "dGhlIHNhbXBsZSBub25jZQ==".toList

/-- A 101 handshake response whose `Sec-WebSocket-Accept` header value is the
expected accept hash with two extra characters appended: its value differs
from the expected hash, yet the expected hash occurs as a substring. -/
def evilResponse : List Char :=
  "HTTP/1.1 101 Switching Protocols\r\nUpgrade: websocket\r\nSec-WebSocket-Accept: ".toList
    ++ calculate_accept_hash rfcKey ++ "AA\r\n\r\n".toList

/-! ## Helper lemmas -/

theorem startsWithL_iff (p s : List Char) :
    startsWithL p s = true ↔ ∃ t, s = p ++ t := by
  induction p generalizing s with
  | nil => simp [startsWithL]
  | cons a ps ih =>
    cases s with
    | nil => simp [startsWithL]
    | cons c cs =>
      simp only [startsWithL]
      by_cases h : a = c
      · subst h
        simp [ih]
      · simp only [if_neg h]
        constructor
        · intro hf; cases hf
        · rintro ⟨t, ht⟩
          injection ht with h1 h2
          exact absurd h1.symm h

theorem strstrSuffix?_isSome_iff (hay pat : List Char) :
    (strstrSuffix? hay pat).isSome = true ↔ ∃ pre post, hay = pre ++ (pat ++ post) := by
  induction hay with
  | nil =>
    rw [strstrSuffix?]
    by_cases h : startsWithL pat [] = true
    · obtain ⟨t, ht⟩ := (startsWithL_iff pat []).1 h
      rcases List.append_eq_nil.1 ht.symm with ⟨h1, h2⟩
      subst h1; subst h2
      simp [h]
    · rw [if_neg h]
      constructor
      · intro hf; cases hf
      · rintro ⟨pre, post, hh⟩
        rcases List.append_eq_nil.1 hh.symm with ⟨h1, h2⟩
        rcases List.append_eq_nil.1 h2 with ⟨h3, h4⟩
        subst h3
        exact absurd ((startsWithL_iff [] []).2 ⟨[], rfl⟩) h
  | cons a t ih =>
    rw [strstrSuffix?]
    by_cases h : startsWithL pat (a :: t) = true
    · obtain ⟨u, hu⟩ := (startsWithL_iff pat (a :: t)).1 h
      simp only [h, if_true, Option.isSome_some, true_iff]
      exact ⟨[], u, by simpa using hu⟩
    · rw [if_neg h, ih]
      constructor
      · rintro ⟨pre, post, hh⟩
        exact ⟨a :: pre, post, by simp [hh]⟩
      · rintro ⟨pre, post, hh⟩
        cases pre with
        | nil =>
          exfalso
          apply h
          exact (startsWithL_iff pat (a :: t)).2 ⟨post, by simpa using hh⟩
        | cons b pre2 =>
          injection hh with h1 h2
          exact ⟨pre2, post, h2⟩

theorem strstrSuffix?_none_not_occurs (hay pat : List Char)
    (h : strstrSuffix? hay pat = none) :
    ¬ ∃ pre post, hay = pre ++ (pat ++ post) := by
  intro hocc
  have := (strstrSuffix?_isSome_iff hay pat).2 hocc
  rw [h] at this
  cases this

theorem imc_unescape_json_cons_ne (c : Char) (t : List Char) (h : c ≠ '\\') :
    imc_unescape_json (c :: t) = c :: imc_unescape_json t := by
  conv_lhs => rw [imc_unescape_json.eq_def]
  simp only
  rw [if_neg h]

theorem hexVal?_hexDigitChar : ∀ m, m < 16 → hexVal? (hexDigitChar m) = some m := by
  decide

theorem strtol16_quad (n : Nat) (hn : n < 256) :
    strtol16 ['0', '0', hexDigitChar (n / 16), hexDigitChar (n % 16)] = (n : Int) := by
  have e1 : hexVal? (hexDigitChar (n / 16)) = some (n / 16) :=
    hexVal?_hexDigitChar _ (by omega)
  have e2 : hexVal? (hexDigitChar (n % 16)) = some (n % 16) :=
    hexVal?_hexDigitChar _ (by omega)
  have h0 : hexVal? '0' = some 0 := by decide
  have hd : List.dropWhile isSpaceC ['0', '0', hexDigitChar (n / 16), hexDigitChar (n % 16)]
      = ['0', '0', hexDigitChar (n / 16), hexDigitChar (n % 16)] := by
    rw [List.dropWhile_cons, if_neg (by decide)]
  simp only [strtol16, hd]
  rw [if_neg (by decide), if_neg (by decide)]
  simp only [drop0x]
  rw [if_neg (by decide)]
  simp only [hexPrefixVal, h0, e1, e2]
  push_cast
  omega

set_option maxRecDepth 4096 in
theorem unescape_escapeChar (c : Char) (hc : c.toNat < 128) (t : List Char) :
    imc_unescape_json (escapeChar c ++ t) = c :: imc_unescape_json t := by
  rw [escapeChar]
  split_ifs with h1 h2 h3 h4 h5 h6 h7 h8
  · subst h1
    conv_lhs => rw [List.cons_append, List.cons_append, List.nil_append,
      imc_unescape_json.eq_def]
    simp
  · subst h2
    conv_lhs => rw [List.cons_append, List.cons_append, List.nil_append,
      imc_unescape_json.eq_def]
    simp
  · subst h3
    conv_lhs => rw [List.cons_append, List.cons_append, List.nil_append,
      imc_unescape_json.eq_def]
    simp [bsChar]
  · subst h4
    conv_lhs => rw [List.cons_append, List.cons_append, List.nil_append,
      imc_unescape_json.eq_def]
    simp [ffChar]
  · subst h5
    conv_lhs => rw [List.cons_append, List.cons_append, List.nil_append,
      imc_unescape_json.eq_def]
    simp
  · subst h6
    conv_lhs => rw [List.cons_append, List.cons_append, List.nil_append,
      imc_unescape_json.eq_def]
    simp
  · subst h7
    conv_lhs => rw [List.cons_append, List.cons_append, List.nil_append,
      imc_unescape_json.eq_def]
    simp
  · have hn : c.toNat < 32 := by
      rcases h8 with h | h
      · exact h
      · omega
    have hmod : c.toNat % 256 = c.toNat := Nat.mod_eq_of_lt (by omega)
    simp only [hexByte, hmod]
    conv_lhs => rw [List.cons_append, List.cons_append, List.cons_append,
      List.cons_append, List.cons_append, List.cons_append, List.nil_append,
      imc_unescape_json.eq_def]
    simp only
    have hlen : ¬ (('0' :: '0' :: hexDigitChar (c.toNat / 16) :: hexDigitChar (c.toNat % 16) :: t).length < 4) := by
      simp
    simp only [if_true]
    rw [if_neg (by decide), if_neg (by decide), if_neg (by decide), if_neg (by decide),
        if_neg (by decide), if_neg (by decide), if_neg (by decide)]
    rw [if_neg hlen]
    congr 1
    simp only [uChar, strtol16_quad c.toNat (by omega)]
    have hlt : (c.toNat : Int) < 128 := by exact_mod_cast hc
    rw [if_pos hlt, charOfByte]
    have h9 : ((c.toNat : Int) % 256).toNat = c.toNat := by omega
    rw [h9, Char.ofNat_toNat]
  · simp only [List.cons_append, List.nil_append]
    exact imc_unescape_json_cons_ne c t h2

theorem unescape_escape (s : List Char) (h : ∀ c ∈ s, c.toNat < 128) :
    imc_unescape_json (imc_escape_json s) = s := by
  induction s with
  | nil => rfl
  | cons c rest ih =>
    rw [imc_escape_json, unescape_escapeChar c (h c (List.mem_cons_self c rest))]
    rw [ih (fun x hx => h x (List.mem_cons_of_mem c hx))]

theorem escape_injOn (s t : List Char) (hs : ∀ c ∈ s, c.toNat < 128)
    (ht : ∀ c ∈ t, c.toNat < 128) (h : imc_escape_json s = imc_escape_json t) :
    s = t := by
  have := unescape_escape s hs
  rw [h, unescape_escape t ht] at this
  exact this.symm

set_option maxRecDepth 8192

/-- C1 (counterexample): in the envelope
`{"type":"tell","from":{"mud":"Beta","user":"Alice"}}` the nested path
`from.mud` exists and holds `"Beta"`, yet `imc_json_get_string` returns NULL
for the dotted key `from.mud` (and finds the member `mud` by flat literal
search instead), so the dotted lookup does not walk nested objects. -/
theorem C1_counterexample :
    imc_json_get_string nestedTellDoc ("from.mud".toList) = none
    ∧ imc_json_get_string nestedTellDoc ("mud".toList) = some ("Beta".toList) := by
  decide

/-- C2 (code bug): with the 20-per-minute cap, 20 tell checks at T=1000 all
pass and a 21st in the same second is rejected, but a 21st attempt one
second later (T=1001, still inside the same 60-second window) is accepted
again, because `imc_check_rate_limit` resets the counter whenever
`time(NULL)` differs from the stored second. -/
theorem C2_code_bug :
    (runRateCalls rateInit 1000 ("tell".toList) ("Bob".toList) 20).1 = 20
    ∧ (imc_check_rate_limit (runRateCalls rateInit 1000 ("tell".toList) ("Bob".toList) 20).2
        1000 ("tell".toList) ("Bob".toList)).1 = false
    ∧ (imc_check_rate_limit (runRateCalls rateInit 1000 ("tell".toList) ("Bob".toList) 20).2
        1001 ("tell".toList) ("Bob".toList)).1 = true := by
  decide

/-- C3 (counterexample): the spec's liveness scenario — authenticated,
`last_pong = 0`, `PING_INTERVAL = 60`, poll at T=180 — does not transition
to disconnected: the pong-timeout test requires `last_pong > 0`, so the
loop leaves the state authenticated. -/
theorem C3_counterexample :
    c3Data.state = ImcState.authenticated ∧ c3Data.last_pong = 0
    ∧ 2 * IMC_PING_INTERVAL < 180 - c3Data.last_pong
    ∧ (imc_loop_step c3Data 180 ConnectOutcome.ok).state = ImcState.authenticated := by
  decide

/-- C4 (code bug): after a reconnect attempt fails at T=0, the next attempt
is launched at T=31 — the loop compares against the fixed
`IMC_RECONNECT_DELAY` — although the claimed backoff
`min(RECONNECT_DELAY * BACKOFF^1, MAX_RETRY_DELAY) = 60` would forbid an
attempt before T=60. -/
theorem C4_code_bug :
    c4AfterFirstFail.state = ImcState.disconnected
    ∧ c4AfterFirstFail.reconnect_attempts = 1
    ∧ c4AfterFirstFail.connect_time = 0
    ∧ (imc_loop_step c4AfterFirstFail 31 ConnectOutcome.authSendFail).reconnect_attempts = 2
    ∧ IMC_RECONNECT_DELAY * IMC_RETRY_BACKOFF = 60 := by
  decide

/-- C6 (counterexample): a reconnect whose `imc_connect` succeeds resets the
attempt counter to 0 while the state is authenticating — right after the
auth envelope is sent and before any transition into authenticated — so the
reset is not tied to the first authenticated transition. -/
theorem C6_counterexample :
    (imc_reconnect c6Data 100 ConnectOutcome.ok).reconnect_attempts = 0
    ∧ (imc_reconnect c6Data 100 ConnectOutcome.ok).state = ImcState.authenticating := by
  decide

/-- C7 (counterexample): after identifier `Alice` performs 20 tell checks at
T=2000, a tell check for the distinct identifier `Bob` at the same instant
is rejected, although from the initial state Bob's check is accepted — so
calls made with one identifier change the outcome for another. -/
theorem C7_counterexample :
    (imc_check_rate_limit (runRateCalls rateInit 2000 ("tell".toList) ("Alice".toList) 20).2
        2000 ("tell".toList) ("Bob".toList)).1 = false
    ∧ (imc_check_rate_limit rateInit 2000 ("tell".toList) ("Bob".toList)).1 = true := by
  decide

/-- C8 (counterexample): parsing does not recover an emitted envelope: in
the auth envelope the emitter produces, the `from` object contains the
member `mud` (flat lookup finds `"YourMUDName"`), yet reading it back with
the dotted key `from.mud` — as `imc_parse_message` does — yields NULL, so
`parse(emit(doc)) = doc` fails for envelopes the emitter can produce. -/
theorem C8_counterexample :
    imc_json_get_string authDoc ("from.mud".toList) = none
    ∧ imc_json_get_string authDoc ("mud".toList) = some IMC_MUD_NAME := by
  decide

/-- C5 (counterexample): for a 101 response whose `Sec-WebSocket-Accept`
header value is the expected hash with `AA` appended — a value different
from `base64(SHA-1(key ∥ magic))` — the handshake check still succeeds,
because the code only tests substring containment; so success does not
imply that the header value equals the expected hash. -/
theorem C5_counterexample :
    imc_websocket_handshake_check evilResponse rfcKey = true
    ∧ specStatusCode evilResponse = some 101
    ∧ specHeaderValue evilResponse ("Sec-WebSocket-Accept".toList)
        ≠ some (calculate_accept_hash rfcKey) := by
  decide

/-- C5 (amended): the handshake succeeds iff the response begins with the
text `HTTP/1.1 101` and contains the substring `Sec-WebSocket-Accept: `
followed by `base64(SHA-1(key ∥ magic))`; in particular the accept value the
client computes for the key `dGhlIHNhbXBsZSBub25jZQ==` is
`s3pPLMBiTxaQ9kYGzzhZRbK+xOo=`. -/
theorem C5_amended :
    (∀ response key, imc_websocket_handshake_check response key = true ↔
      (startsWithL ("HTTP/1.1 101".toList) response = true
        ∧ ∃ pre post, response
            = pre ++ (("Sec-WebSocket-Accept: ".toList ++ calculate_accept_hash key) ++ post)))
    ∧ calculate_accept_hash ("dGhlIHNhbXBsZSBub25jZQ==".toList)
        = "s3pPLMBiTxaQ9kYGzzhZRbK+xOo=".toList := by
  constructor
  · intro response key
    rw [imc_websocket_handshake_check]
    by_cases h : startsWithL ("HTTP/1.1 101".toList) response = true
    · rw [if_pos h, strstrSuffix?_isSome_iff]
      exact ⟨fun hocc => ⟨h, hocc⟩, fun hh => hh.2⟩
    · rw [if_neg h]
      constructor
      · intro hf; exact absurd hf (by decide)
      · intro hh; exact absurd hh.1 h
  · decide

/-- C7 (amended): `imc_check_rate_limit` ignores its identifier argument —
any two identifiers receive identical results on identical states — and the
counters are shared per operation type, so one identifier's calls do change
another's outcome (Alice's 20 tell checks at T=2000 make Bob's check at
T=2000 fail, though from a fresh state it passes). -/
theorem C7_amended :
    (∀ st now ty i1 i2, imc_check_rate_limit st now ty i1 = imc_check_rate_limit st now ty i2)
    ∧ (imc_check_rate_limit (runRateCalls rateInit 2000 ("tell".toList) ("Alice".toList) 20).2
        2000 ("tell".toList) ("Bob".toList)).1 = false
    ∧ (imc_check_rate_limit rateInit 2000 ("tell".toList) ("Bob".toList)).1 = true := by
  refine ⟨fun st now ty i1 i2 => rfl, ?_, ?_⟩ <;> decide

/-- C10: every operation type other than `tell`, `channel` and `who` is
never rate limited: `imc_check_rate_limit` returns TRUE and leaves the
limiter state unchanged, for every state, time, and identifier. -/
theorem C10_untracked_not_limited :
    ∀ st now ty ident, ty ≠ "tell".toList → ty ≠ "channel".toList → ty ≠ "who".toList →
      imc_check_rate_limit st now ty ident = (true, st) := by
  intro st now ty ident h1 h2 h3
  rw [imc_check_rate_limit, if_neg h1, if_neg h2, if_neg h3]

/-- C10 (witness): an `emote` check at T=5 from the initial state is
accepted and changes nothing. -/
theorem C10_witness :
    imc_check_rate_limit rateInit 5 ("emote".toList) ("Bob".toList) = (true, rateInit) :=
  C10_untracked_not_limited rateInit 5 ("emote".toList) ("Bob".toList)
    (by decide) (by decide) (by decide)

/-- C1 (amended): `imc_json_get_string` resolves a key by searching for the
literal text `"key":` in the document — when that text occurs nowhere the
result is NULL, a flat member whose name is literally `from.mud` is found,
and a dotted key is NOT resolved by walking nested objects (the nested
envelope yields NULL for `from.mud`). -/
theorem C1_amended :
    (∀ json key, (¬ ∃ pre post, json = pre ++ (searchPattern key ++ post)) →
        imc_json_get_string json key = none)
    ∧ imc_json_get_string flatDottedDoc ("from.mud".toList) = some ("Beta".toList)
    ∧ imc_json_get_string nestedTellDoc ("from.mud".toList) = none := by
  refine ⟨?_, by decide, by decide⟩
  intro json key h
  have hn : strstrSuffix? json (searchPattern key) = none := by
    cases hs : strstrSuffix? json (searchPattern key) with
    | none => rfl
    | some v =>
      exfalso
      apply h
      have : (strstrSuffix? json (searchPattern key)).isSome = true := by
        rw [hs]; rfl
      exact (strstrSuffix?_isSome_iff json (searchPattern key)).1 this
  rw [imc_json_get_string, hn]

/-- C1 (witness): the key `mud` does not occur in the two-character document
`ab`, and the lookup returns NULL there. -/
theorem C1_amended_witness :
    imc_json_get_string ("ab".toList) ("mud".toList) = none :=
  C1_amended.1 ("ab".toList) ("mud".toList)
    (strstrSuffix?_none_not_occurs ("ab".toList) (searchPattern ("mud".toList)) (by decide))

/-- C8 (amended): over NUL-free ASCII strings — which include the ASCII
control and quote set — `imc_unescape_json ∘ imc_escape_json` is the
identity and `imc_escape_json` is injective; but `parse(emit(doc)) = doc`
fails for the envelopes the emitter produces: the emitted auth envelope's
nested `from.mud` field reads back as NULL. -/
theorem C8_amended :
    (∀ s : List Char, (∀ c ∈ s, c.toNat < 128) →
        imc_unescape_json (imc_escape_json s) = s)
    ∧ (∀ s t : List Char, (∀ c ∈ s, c.toNat < 128) → (∀ c ∈ t, c.toNat < 128) →
        imc_escape_json s = imc_escape_json t → s = t)
    ∧ imc_json_get_string authDoc ("from.mud".toList) = none := by
  exact ⟨unescape_escape, escape_injOn, by decide⟩

/-- C8 (witness): the escape/unescape round trip on a string containing a
quote, a backslash, a newline and a control byte. -/
theorem C8_amended_witness :
    imc_unescape_json (imc_escape_json ('"' :: '\\' :: '\n' :: Char.ofNat 1 :: 'z' :: []))
      = '"' :: '\\' :: '\n' :: Char.ofNat 1 :: 'z' :: [] :=
  C8_amended.1 ('"' :: '\\' :: '\n' :: Char.ofNat 1 :: 'z' :: []) (by decide)

/-- C3 (amended): in the authenticated state the poll disconnects on pong
timeout only when a pong was ever received: if `last_pong > 0` and
`now − last_pong > 2·PING_INTERVAL` the next loop invocation transitions to
disconnected, while with `last_pong = 0` the state stays authenticated no
matter how much time has passed. -/
theorem C3_amended :
    (∀ d now oc, d.state = ImcState.authenticated → 0 < d.last_pong →
        2 * IMC_PING_INTERVAL < now - d.last_pong →
        (imc_loop_step d now oc).state = ImcState.disconnected)
    ∧ (∀ d now oc, d.state = ImcState.authenticated → d.last_pong = 0 →
        (imc_loop_step d now oc).state = ImcState.authenticated) := by
  constructor
  · intro d now oc h1 h2 h3
    obtain ⟨st, lp, lpo, ct, ra⟩ := d
    simp only at h1 h2 h3
    subst h1
    simp only [imc_loop_step]
    split
    · rw [if_pos ⟨h2, h3⟩]
      rfl
    · rw [if_pos ⟨h2, h3⟩]
      rfl
  · intro d now oc h1 h2
    obtain ⟨st, lp, lpo, ct, ra⟩ := d
    simp only at h1 h2
    subst h1
    subst h2
    simp only [imc_loop_step]
    split
    · rw [if_neg (by simp)]
    · rw [if_neg (by simp)]

/-- C3 (witness): a concrete authenticated state with `last_pong = 10` seen
at `now = 200` disconnects on the next loop invocation. -/
theorem C3_amended_witness :
    (imc_loop_step ⟨ImcState.authenticated, 60, 10, 0, 0⟩ 200 ConnectOutcome.ok).state
      = ImcState.disconnected :=
  C3_amended.1 ⟨ImcState.authenticated, 60, 10, 0, 0⟩ 200 ConnectOutcome.ok
    rfl (by decide) (by decide)

/-- C6 (amended): while the cap is not exceeded, every reconnect attempt
increments the counter by one when it fails at any stage, and the counter
is reset to 0 exactly when `imc_connect` returns success — which happens
right after the auth envelope is sent, with the connection still in the
authenticating state, not on a transition into authenticated. -/
theorem C6_amended :
    ∀ d now oc, d.reconnect_attempts + 1 ≤ IMC_MAX_RECONNECTS →
      ((imc_reconnect d now oc).reconnect_attempts
          = if oc = ConnectOutcome.ok then 0 else d.reconnect_attempts + 1)
      ∧ (oc = ConnectOutcome.ok →
          (imc_reconnect d now oc).state = ImcState.authenticating) := by
  intro d now oc h
  have hle : ¬ IMC_MAX_RECONNECTS < d.reconnect_attempts + 1 := by
    simp only [IMC_MAX_RECONNECTS] at h ⊢
    omega
  cases oc with
  | sockFail =>
    refine ⟨?_, by intro hc; cases hc⟩
    simp only [imc_reconnect, imc_connect]
    rw [if_neg hle, if_neg (by decide)]
    rfl
  | handshakeFail =>
    refine ⟨?_, by intro hc; cases hc⟩
    simp only [imc_reconnect, imc_connect]
    rw [if_neg hle, if_neg (by decide)]
    rfl
  | authSendFail =>
    refine ⟨?_, by intro hc; cases hc⟩
    simp only [imc_reconnect, imc_connect, imc_disconnect]
    rw [if_neg hle, if_neg (by decide)]
    rfl
  | ok =>
    constructor
    · simp only [imc_reconnect, imc_connect]
      rw [if_neg hle, if_pos (by decide)]
      rfl
    · intro _
      simp only [imc_reconnect, imc_connect]
      rw [if_neg hle, if_pos (by decide)]
  
/-- C6 (witness): a failing reconnect from two recorded attempts moves the
counter to three. -/
theorem C6_amended_witness :
    ((imc_reconnect ⟨ImcState.disconnected, 0, 0, 0, 2⟩ 50 ConnectOutcome.sockFail).reconnect_attempts
        = if ConnectOutcome.sockFail = ConnectOutcome.ok then 0 else 2 + 1)
    ∧ (ConnectOutcome.sockFail = ConnectOutcome.ok →
        (imc_reconnect ⟨ImcState.disconnected, 0, 0, 0, 2⟩ 50 ConnectOutcome.sockFail).state
          = ImcState.authenticating) :=
  C6_amended ⟨ImcState.disconnected, 0, 0, 0, 2⟩ 50 ConnectOutcome.sockFail (by decide)

/-- C9: `imc_json_get_int` returns 0 when the requested key does not occur
in the document, and when the key is found but the value text begins like a
non-numeric JSON value (string, boolean, null, object or array); concretely,
an error envelope with no `code` member, one whose `payload.code` is read
with the dotted key, one whose `code` is the string `"abc"`, and one whose
`code` is actually 0 all yield the same 0, so a caller cannot tell them
apart. -/
theorem C9_get_int_zero :
    (∀ json key, (¬ ∃ pre post, json = pre ++ (searchPattern key ++ post)) →
        imc_json_get_int json key = 0)
    ∧ (∀ json key keyPos colonPos,
        strstrSuffix? json (searchPattern key) = some keyPos →
        strchrSuffix? keyPos ':' = some colonPos →
        jsonNonNumericStart (skipWs colonPos.tail) = true →
        imc_json_get_int json key = 0)
    ∧ imc_json_get_int errDocNoCode ("code".toList) = 0
    ∧ imc_json_get_int errDocZeroCode ("payload.code".toList) = 0
    ∧ imc_json_get_int strCodeDoc ("code".toList) = 0
    ∧ imc_json_get_int errDocZeroCode ("code".toList) = 0 := by
  refine ⟨?_, ?_, by decide, by decide, by decide, by decide⟩
  · intro json key h
    have hn : strstrSuffix? json (searchPattern key) = none := by
      cases hs : strstrSuffix? json (searchPattern key) with
      | none => rfl
      | some v =>
        exfalso
        apply h
        have : (strstrSuffix? json (searchPattern key)).isSome = true := by
          rw [hs]; rfl
        exact (strstrSuffix?_isSome_iff json (searchPattern key)).1 this
    rw [imc_json_get_int, hn]
  · intro json key keyPos colonPos h1 h2 h3
    simp only [imc_json_get_int, h1, h2]
    cases hh : skipWs colonPos.tail with
    | nil => decide
    | cons c rest =>
      rw [hh] at h3
      have hpred : (isDigitC c || c = '-' || c = '+') = false := by
        simp only [jsonNonNumericStart, List.head?] at h3
        rcases Bool.or_eq_true_iff.1 h3 with h | h
        · rcases Bool.or_eq_true_iff.1 h with h | h
          · rcases Bool.or_eq_true_iff.1 h with h | h
            · rcases Bool.or_eq_true_iff.1 h with h | h
              · rcases Bool.or_eq_true_iff.1 h with h | h
                · rw [decide_eq_true_iff] at h; subst h; decide
                · rw [decide_eq_true_iff] at h; subst h; decide
              · rw [decide_eq_true_iff] at h; subst h; decide
            · rw [decide_eq_true_iff] at h; subst h; decide
          · rw [decide_eq_true_iff] at h; subst h; decide
        · rw [decide_eq_true_iff] at h; subst h; decide
      rw [List.takeWhile_cons, if_neg (by rw [hpred]; exact Bool.false_ne_true)]
      decide

/-- C9 (witness): the key `code` does not occur in the document `ab`, and
the integer lookup returns 0 there. -/
theorem C9_get_int_zero_witness :
    imc_json_get_int ("ab".toList) ("code".toList) = 0 :=
  C9_get_int_zero.1 ("ab".toList) ("code".toList)
    (strstrSuffix?_none_not_occurs ("ab".toList) (searchPattern ("code".toList)) (by decide))
